import Mathlib

/-!
Verification of the portfolio-evaluation engine (portopt).

Shallow embedding of the modules `expand_array.py`, `market.py`,
`strategist.py` and `trader.py`.  Pure numerical code is translated to
functions over a linear ordered field `K` (instantiated at `ℚ` for
executable witnesses and at `ℝ` where the source uses `exp`/`sqrt`);
stateful code is modelled by explicit state passing; code that raises a
Python exception is modelled with `Except`/`Option`.
-/

/- ## ExpandArray (`expand_array.py`) -/

/-- Failure modes of `ExpandArray`.  `dimensionMismatch` models the
`AssertionError` raised by `append_col` when the column length differs
from `num_rows`; `emptyMatrix` models the `IndexError` raised by
`last_col` when it indexes `row[-1]` on a still-empty row (the source has
no explicit emptiness check; the IndexError occurs exactly when no column
has been appended and at least one row exists). -/
inductive ArrayError where
  | dimensionMismatch : ArrayError
  | emptyMatrix : ArrayError
deriving DecidableEq

/-- The `ExpandArray` class: a fixed number of rows, a nested list of
rows that grows column by column, and the `is_empty` flag (which the
source sets but never consults in `last_col`). -/
structure ExpandArray (α : Type) where
  num_rows : ℕ
  is_empty : Bool
  data : List (List α)
deriving DecidableEq

/-- The `ExpandArray.__init__` constructor: `num_rows` empty rows. -/
def ExpandArray.init (α : Type) (num_rows : ℕ) : ExpandArray α :=
  ⟨num_rows, true, List.replicate num_rows []⟩

/-- `ExpandArray.append_col`: asserts `len(col) == num_rows` (modelled as
`dimensionMismatch` on failure), then appends `col[i]` to row `i` and
clears `is_empty`. -/
def ExpandArray.append_col {α : Type} (a : ExpandArray α) (col : List α) :
    Except ArrayError (ExpandArray α) :=
  if col.length = a.num_rows then
    Except.ok ⟨a.num_rows, false, (a.data.zip col).map (fun rc => rc.1 ++ [rc.2])⟩
  else
    Except.error ArrayError.dimensionMismatch

/-- `ExpandArray.last_col`: takes `row[-1]` of every row, which raises an
`IndexError` (modelled as `emptyMatrix`) as soon as some row is empty.
The source returns a bare scalar when `num_rows == 1`; the embedding
returns a one-element list in that case, a shape difference only. -/
def ExpandArray.last_col {α : Type} (a : ExpandArray α) :
    Except ArrayError (List α) :=
  if a.data.any (fun row => row.isEmpty) then
    Except.error ArrayError.emptyMatrix
  else
    Except.ok (a.data.filterMap (fun row => row.getLast?))

/- ## Market layer (`market.py`) -/

/-- `ConstantMarketModel`: the four construction parameters.  Its `step`
returns `(stock_mean, stock_volatility, ir)` unchanged, and its
`sample_path` broadcasts the same triple over the horizon. -/
structure ConstantMarketModel where
  dt : ℝ
  stock_mean : ℝ
  stock_volatility : ℝ
  ir : ℝ

namespace MarketSimulator

/-- One stock multiplier of `MarketSimulator.sample_path`:
`1 + mean*dt + volatility*sqrt(dt)*z_k` (entry `k` of
`stock_multipliers`), with `z` the standard-normal innovation sequence. -/
noncomputable def stockMultiplier (m : ConstantMarketModel) (z : ℕ → ℝ) (k : ℕ) : ℝ :=
  1 + m.stock_mean * m.dt + m.stock_volatility * Real.sqrt m.dt * z k

/-- The stock row of `MarketSimulator.sample_path`:
`np.hstack(([1], np.cumprod(stock_multipliers)))`, so entry `t` is the
product of the first `t` multipliers. -/
noncomputable def batchStockPrice (m : ConstantMarketModel) (z : ℕ → ℝ) (t : ℕ) : ℝ :=
  ∏ k in Finset.range t, stockMultiplier m z k

/-- The money-market row of `MarketSimulator.sample_path`:
`np.hstack(([1], np.exp(dt * np.cumsum(irs))))`; with the constant model
the cumulative sum of the first `t` rates is `t * ir`. -/
noncomputable def batchMoneyPrice (m : ConstantMarketModel) (t : ℕ) : ℝ :=
  if t = 0 then 1 else Real.exp (m.dt * ((t : ℝ) * m.ir))

/-- The interest-rate row of `MarketSimulator.sample_path`
(`irs_long = np.insert(irs, 0, irs[0])`): constant at `ir`. -/
def irPath (m : ConstantMarketModel) : ℕ → ℝ := fun _ => m.ir

/-- The stock price after `t` calls to `MarketSimulator.step` from a
freshly reset market, replayed with innovation sequence `z`:
`new_stock_price = stock_price + stock_price*(mean*dt + vol*sqrt(dt)*z)`. -/
noncomputable def stepStockPrice (m : ConstantMarketModel) (z : ℕ → ℝ) : ℕ → ℝ
  | 0 => 1
  | t + 1 =>
    stepStockPrice m z t
      + stepStockPrice m z t
        * (m.stock_mean * m.dt + m.stock_volatility * Real.sqrt m.dt * z t)

/-- The money-market price after `t` calls to `MarketSimulator.step` from
a freshly reset market:
`new_money_market_price = money_market_price * (1 + ir*dt)`. -/
def stepMoneyPrice (m : ConstantMarketModel) : ℕ → ℝ
  | 0 => 1
  | t + 1 => stepMoneyPrice m t * (1 + m.ir * m.dt)

end MarketSimulator

/-- Failures of `MarketSimulator.sample_path`.  The source performs no
horizon validation: `invalidHorizon` is modelled from the spec only (its
error taxonomy) and is never produced by the code; the code instead hits
`negativeDimensions` (the numpy `ValueError` from allocating an array
with `num_points < 0`) or `indexOutOfBounds` (the `IndexError` from
`irs[0]` when `num_points == 0` leaves `irs` empty). -/
inductive MarketFailure where
  | invalidHorizon : MarketFailure
  | negativeDimensions : MarketFailure
  | indexOutOfBounds : MarketFailure
deriving DecidableEq

/-- Truncation toward zero, the behaviour of the Python builtin `int()`
on a real quotient. -/
def pyInt (q : ℚ) : ℤ :=
  if 0 ≤ q then Int.floor q else Int.ceil q

/-- `MarketSimulator.sample_path` with its failure behaviour.
`num_points = int(T_horizon / dt) - 1`; if it is negative the constant
model allocates `np.ones((3, num_points))` and numpy raises a
negative-dimensions `ValueError`; if it is zero, `irs` is empty and
`np.insert(irs, 0, irs[0])` raises an `IndexError`; otherwise the price
rows are returned.  `dt` and `T_horizon` are taken as exact rationals so
that the truncation is computable; the price formulas use their real
images. -/
noncomputable def MarketSimulator.samplePathChecked (dt T_horizon : ℚ)
    (stock_mean stock_volatility ir : ℝ) (z : ℕ → ℝ) :
    Except MarketFailure ((ℕ → ℝ) × (ℕ → ℝ)) :=
  let n : ℤ := pyInt (T_horizon / dt) - 1
  if n < 0 then Except.error MarketFailure.negativeDimensions
  else if n = 0 then Except.error MarketFailure.indexOutOfBounds
  else
    Except.ok
      (fun t => MarketSimulator.batchMoneyPrice ⟨(dt : ℝ), stock_mean, stock_volatility, ir⟩ t,
       fun t =>
        MarketSimulator.batchStockPrice ⟨(dt : ℝ), stock_mean, stock_volatility, ir⟩ z t)

/- ## Strategies (`strategist.py`) -/

section Strategies

variable {K : Type} [LinearOrderedField K]

/-- `ConstantStrategy.compute_path`: the constant fraction at every
tick (`np.ones(num_points) * self.stock_frac`). -/
def ConstantStrategy.computePath (stock_frac : K) : ℕ → K := fun _ => stock_frac

namespace MaxWealthStrategy

/-- `MaxWealthStrategy.reset`: the initial stock fraction is `1.0`. -/
def reset : K := 1

/-- `MaxWealthStrategy.step` on one observation
`(money market price, stock price, interest rate)`:
`1.0 if information[1] > information[0] else 0.0` (strict comparison). -/
def step (info : K × K × K) : K :=
  if info.2.1 > info.1 then 1 else 0

/-- `MaxWealthStrategy.compute_path` over the price rows `M`, `S`:
`np.hstack([[1.0], np.greater_equal(information[1][:-1], information[0][:-1])])`,
so entry `0` is `1.0` and entry `t+1` compares the prices at tick `t`
with `≥`. -/
def computePath (M S : ℕ → K) : ℕ → K
  | 0 => 1
  | t + 1 => if S t ≥ M t then 1 else 0

/-- The sequence of fractions produced online: entry `0` is `reset`,
entry `t ≥ 1` is `step` applied to the observation of tick `t`. -/
def stepSeq (M S r : ℕ → K) : ℕ → K
  | 0 => reset
  | t + 1 => step (M (t + 1), S (t + 1), r (t + 1))

end MaxWealthStrategy

/-- `ConstantCRRAOracleStrategy.compute_path` specialised to the constant
market model, whose parameter rows are constant: entry `0` is `1.0` and
every later entry is `((mean - ir)/vol) / (vol * R)`.  When the
volatility is zero (or `R` is zero) the numpy divisions produce NaN (the
scalar `step` raises `ZeroDivisionError`); this failure is modelled as
`none`. -/
def ConstantCRRAOracleStrategy.computePathC (R : K) (stock_mean stock_volatility ir : K) :
    Option (ℕ → K) :=
  if stock_volatility = 0 ∨ R = 0 then none
  else
    some fun t =>
      if t = 0 then 1 else ((stock_mean - ir) / stock_volatility) / (stock_volatility * R)

end Strategies

/- ## Trader (`trader.py`) -/

section TraderDefs

variable {K : Type} [LinearOrderedField K]

/-- The mutable state of a `Trader` after some number of online steps:
the last recorded stock price, the latest positions (money-market shares
and stock shares, the last column of `positions`), and the latest
portfolio value (the last column of `portfolio_val`). -/
structure TraderSt (K : Type) where
  lastStockPrice : K
  moneyMarketPos : K
  stockPos : K
  portfolioVal : K

namespace Trader

/-- The trader state after replaying `Trader.step` `t` times along the
observation path `(M, S, r)` (ticks `1, 2, ...`), where `f t` is the
fraction the strategist returns at tick `t` (`f 0` being
`strategist.reset()`).  Tick `0` is `Trader.reset`: wealth `1`, positions
`frac2position(f 0, 1)` and `frac2position(1 - f 0, 1)`.  Each step first
grows the portfolio value by
`stock_pos*(S_new - S_last) + ir*(port_val - stock_pos*S_last)*dt`,
then re-derives both positions from the new fraction and new prices via
`frac2position(fraction, price) = fraction * port_val / price`. -/
def onlineState (dt : K) (f M S r : ℕ → K) : ℕ → TraderSt K
  | 0 => ⟨1, (1 - f 0) * 1 / 1, f 0 * 1 / 1, 1⟩
  | t + 1 =>
    let p := onlineState dt f M S r t
    let W := p.portfolioVal
      + (p.stockPos * (S (t + 1) - p.lastStockPrice)
         + r (t + 1) * (p.portfolioVal - p.stockPos * p.lastStockPrice) * dt)
    ⟨S (t + 1), (1 - f (t + 1)) * W / M (t + 1), f (t + 1) * W / S (t + 1), W⟩

/-- The portfolio-value row of `Trader.compute_path`:
`np.hstack([[1], np.cumprod(aux_arr)])` with
`aux_arr[t] = 1 + fracs[t+1]*(S[t+1]-S[t])/S[t] + (1-fracs[t+1])*irs[t+1]*dt`. -/
def batchWealth (dt : K) (fracs S r : ℕ → K) : ℕ → K
  | 0 => 1
  | t + 1 =>
    batchWealth dt fracs S r t
      * (1 + fracs (t + 1) * ((S (t + 1) - S t) / S t)
         + (1 - fracs (t + 1)) * r (t + 1) * dt)

/-- The stock-position row of `Trader.compute_path`:
`stock_fractions * portfolio_values / information[1]`. -/
def batchStockPos (dt : K) (fracs M S r : ℕ → K) (t : ℕ) : K :=
  fracs t * batchWealth dt fracs S r t / S t

/-- The money-market-position row of `Trader.compute_path`:
`(1 - stock_fractions) * portfolio_values / information[0]`. -/
def batchMoneyPos (dt : K) (fracs M S r : ℕ → K) (t : ℕ) : K :=
  (1 - fracs t) * batchWealth dt fracs S r t / M t

end Trader

end TraderDefs

/-- Terminal wealth of a trader driven by the constant-market CRRA oracle
strategy on the sample paths of model `m`: `compute_path` of the strategy
(`none` when it divides by zero volatility, i.e. when the fractions are
NaN) mapped through the batch wealth recursion up to tick `n`. -/
noncomputable def crraTerminalWealth (R : ℝ) (m : ConstantMarketModel) (z : ℕ → ℝ) (n : ℕ) :
    Option ℝ :=
  (ConstantCRRAOracleStrategy.computePathC R m.stock_mean m.stock_volatility m.ir).map
    fun fracs =>
      Trader.batchWealth m.dt fracs (MarketSimulator.batchStockPrice m z)
        (MarketSimulator.irPath m) n

/- ## Batch calls as state transformers (frame behaviour) -/

/-- The mutable state of a `MarketSimulator`: the `prices` buffer
(columns of money-market and stock prices; `reset` installs the single
column `(1, 1)`). -/
structure MarketState where
  prices : List (ℝ × ℝ)

/-- `MarketSimulator.sample_path` as a state transformer: the body reads
`self.dt` and `self.market_model` only and assigns no attribute, so the
state component is returned unchanged next to the batch price rows. -/
noncomputable def MarketSimulator.samplePathState (m : ConstantMarketModel)
    (s : MarketState) (z : ℕ → ℝ) :
    MarketState × ((ℕ → ℝ) × (ℕ → ℝ)) :=
  (s, (fun t => MarketSimulator.batchMoneyPrice m t,
       fun t => MarketSimulator.batchStockPrice m z t))

/-- The mutable state of a `Trader`: `last_stock_price` and the
`positions` and `portfolio_val` buffers. -/
structure TraderBuffers where
  last_stock_price : ℝ
  positions : List (ℝ × ℝ)
  portfolio_val : List ℝ

/-- `Trader.compute_path` as a state transformer: the body performs no
assignment to `self`, so the state component is returned unchanged next
to the computed position rows and portfolio-value row. -/
noncomputable def Trader.computePathState (dt : ℝ) (st : TraderBuffers)
    (fracs M S r : ℕ → ℝ) :
    TraderBuffers × ((ℕ → ℝ × ℝ) × (ℕ → ℝ)) :=
  (st,
   (fun t => (Trader.batchMoneyPos dt fracs M S r t, Trader.batchStockPos dt fracs M S r t),
    Trader.batchWealth dt fracs S r))

/- ## Concrete market models used in the theorems -/

/-- Constant market with `dt = 1`, zero drift, zero volatility, zero rate. -/
noncomputable def zeroRateModel : ConstantMarketModel := ⟨1, 0, 0, 0⟩

/-- Constant market with `dt = 1`, zero drift, zero volatility, unit rate. -/
noncomputable def unitRateModel : ConstantMarketModel := ⟨1, 0, 0, 1⟩

/-- The market of the zero-drift, zero-volatility test scenario:
`dt = 1/365`, `drift = volatility = rate = 0` (one-year horizon gives
`int(1/dt) - 1 = 364` sampled points, ticks `0..364`). -/
noncomputable def yearModel : ConstantMarketModel := ⟨1 / 365, 0, 0, 0⟩

/- ## Helper lemmas -/

/-- Cancellation behind the self-financing identity: positions derived as
`fraction * wealth / price` book back to the wealth when both prices are
nonzero. -/
theorem selfFinAux {K : Type} [LinearOrderedField K] (g W Mv Sv : K)
    (hM : Mv ≠ 0) (hS : Sv ≠ 0) :
    (1 - g) * W / Mv * Mv + g * W / Sv * Sv = W := by
  rw [div_mul_cancel₀ _ hM, div_mul_cancel₀ _ hS]
  ring

/-- With zero rate the batch money-market row is constantly `1`. -/
theorem batchMoneyPrice_of_ir_zero (m : ConstantMarketModel) (h : m.ir = 0) (t : ℕ) :
    MarketSimulator.batchMoneyPrice m t = 1 := by
  unfold MarketSimulator.batchMoneyPrice
  split
  · rfl
  · simp [h]

/-- With zero drift and zero volatility the batch stock row is
constantly `1`. -/
theorem batchStockPrice_of_zero_params (m : ConstantMarketModel) (z : ℕ → ℝ)
    (hmean : m.stock_mean = 0) (hvol : m.stock_volatility = 0) (t : ℕ) :
    MarketSimulator.batchStockPrice m z t = 1 := by
  have h : ∀ k, MarketSimulator.stockMultiplier m z k = 1 := fun k => by
    simp [MarketSimulator.stockMultiplier, hmean, hvol]
  simp [MarketSimulator.batchStockPrice, h]

/-- Over a constant-one stock path with zero rates the batch wealth row
is constantly `1`, whatever the fraction path. -/
theorem batchWealth_of_flat_market {K : Type} [LinearOrderedField K] (dt : K)
    (fracs S r : ℕ → K) (hS : ∀ k, S k = 1) (hr : ∀ k, r k = 0) (t : ℕ) :
    Trader.batchWealth dt fracs S r t = 1 := by
  induction t with
  | zero => rfl
  | succ n ih =>
    rw [Trader.batchWealth, ih]
    simp [hS, hr]

/- ## Claim theorems -/

/-- C1 (counterexample): replaying `step` does not reproduce the
money-market row of `sample_path` within 1e-9 relative tolerance.  With
`dt = 1`, rate `1` and zero drift and volatility, after one tick `step`
gives `1 * (1 + 1*1) = 2` while `sample_path` gives `exp 1`, a relative
gap of about `0.26`. -/
theorem market_money_step_batch_mismatch :
    |MarketSimulator.stepMoneyPrice unitRateModel 1
        - MarketSimulator.batchMoneyPrice unitRateModel 1|
      > 1 / 1000000000 * |MarketSimulator.batchMoneyPrice unitRateModel 1| := by
  have hstep : MarketSimulator.stepMoneyPrice unitRateModel 1 = 2 := by
    norm_num [MarketSimulator.stepMoneyPrice, unitRateModel]
  have hbatch : MarketSimulator.batchMoneyPrice unitRateModel 1 = Real.exp 1 := by
    norm_num [MarketSimulator.batchMoneyPrice, unitRateModel]
  have h1 : (2.7182818283 : ℝ) < Real.exp 1 := Real.exp_one_gt_d9
  have h2 : Real.exp 1 < 2.7182818286 := Real.exp_one_lt_d9
  rw [hstep, hbatch, abs_of_neg (by linarith), abs_of_pos (by linarith)]
  linarith

/-- C1 (amended): replaying `step` with the same innovations reproduces
the stock row of `sample_path` exactly, tick by tick; the money-market
row of `step` is the simple-compounding power `(1 + ir*dt)^t`, which
coincides with the continuously compounded batch row when the rate is
zero (and differs beyond 1e-9 relative tolerance otherwise). -/
theorem market_step_batch_equivalence (m : ConstantMarketModel) (z : ℕ → ℝ) (t : ℕ) :
    MarketSimulator.stepStockPrice m z t = MarketSimulator.batchStockPrice m z t ∧
      MarketSimulator.stepMoneyPrice m t = (1 + m.ir * m.dt) ^ t ∧
      (m.ir = 0 →
        MarketSimulator.stepMoneyPrice m t = MarketSimulator.batchMoneyPrice m t) := by
  refine ⟨?_, ?_, ?_⟩
  · induction t with
    | zero => simp [MarketSimulator.stepStockPrice, MarketSimulator.batchStockPrice]
    | succ n ih =>
      have hsucc : MarketSimulator.batchStockPrice m z (n + 1)
          = MarketSimulator.batchStockPrice m z n * MarketSimulator.stockMultiplier m z n :=
        Finset.prod_range_succ _ n
      rw [MarketSimulator.stepStockPrice, ih, hsucc, MarketSimulator.stockMultiplier]
      ring
  · induction t with
    | zero => simp [MarketSimulator.stepMoneyPrice]
    | succ n ih => rw [MarketSimulator.stepMoneyPrice, ih, pow_succ]
  · intro h
    rw [batchMoneyPrice_of_ir_zero m h]
    induction t with
    | zero => rfl
    | succ n ih => rw [MarketSimulator.stepMoneyPrice, ih, h]; ring

/-- C1 (witness): the amended equivalence evaluated on the zero-rate
model with zero innovations after one tick. -/
theorem market_step_batch_equivalence_w :
    MarketSimulator.stepStockPrice zeroRateModel (fun _ => 0) 1
        = MarketSimulator.batchStockPrice zeroRateModel (fun _ => 0) 1 ∧
      MarketSimulator.stepMoneyPrice zeroRateModel 1
        = (1 + zeroRateModel.ir * zeroRateModel.dt) ^ 1 ∧
      MarketSimulator.stepMoneyPrice zeroRateModel 1
        = MarketSimulator.batchMoneyPrice zeroRateModel 1 :=
  ⟨(market_step_batch_equivalence zeroRateModel (fun _ => 0) 1).1,
   (market_step_batch_equivalence zeroRateModel (fun _ => 0) 1).2.1,
   (market_step_batch_equivalence zeroRateModel (fun _ => 0) 1).2.2 rfl⟩

/-- C2: the self-financing identity
`wealth = money_market_position * M + stock_position * S` holds at every
tick, both for the state reached by repeated `Trader.step` calls and for
the rows computed by `Trader.compute_path`, for any fraction sequence and
any price path that starts at `(1, 1)` and stays nonzero. -/
theorem self_financing_identity {K : Type} [LinearOrderedField K] (dt : K)
    (f M S r : ℕ → K) (t : ℕ) (hM0 : M 0 = 1) (hS0 : S 0 = 1)
    (hM : ∀ k, M k ≠ 0) (hS : ∀ k, S k ≠ 0) :
    (Trader.onlineState dt f M S r t).portfolioVal
        = (Trader.onlineState dt f M S r t).moneyMarketPos * M t
          + (Trader.onlineState dt f M S r t).stockPos * S t ∧
      Trader.batchWealth dt f S r t
        = Trader.batchMoneyPos dt f M S r t * M t
          + Trader.batchStockPos dt f M S r t * S t := by
  constructor
  · cases t with
    | zero =>
      simp only [Trader.onlineState, hM0, hS0]
      ring
    | succ n =>
      simp only [Trader.onlineState]
      exact (selfFinAux _ _ _ _ (hM (n + 1)) (hS (n + 1))).symm
  · rw [Trader.batchMoneyPos, Trader.batchStockPos]
    exact (selfFinAux _ _ _ _ (hM t) (hS t)).symm

/-- C2 (witness): the identity evaluated at tick 1 on the constant unit
price path with fraction one half and zero rate. -/
theorem self_financing_identity_w :
    (Trader.onlineState (1 : ℚ) (fun _ => 1/2) (fun _ => 1) (fun _ => 1) (fun _ => 0) 1).portfolioVal
        = (Trader.onlineState (1 : ℚ) (fun _ => 1/2) (fun _ => 1) (fun _ => 1) (fun _ => 0) 1).moneyMarketPos * 1
          + (Trader.onlineState (1 : ℚ) (fun _ => 1/2) (fun _ => 1) (fun _ => 1) (fun _ => 0) 1).stockPos * 1 ∧
      Trader.batchWealth (1 : ℚ) (fun _ => 1/2) (fun _ => 1) (fun _ => 0) 1
        = Trader.batchMoneyPos (1 : ℚ) (fun _ => 1/2) (fun _ => 1) (fun _ => 1) (fun _ => 0) 1 * 1
          + Trader.batchStockPos (1 : ℚ) (fun _ => 1/2) (fun _ => 1) (fun _ => 1) (fun _ => 0) 1 * 1 :=
  self_financing_identity (1 : ℚ) (fun _ => 1/2) (fun _ => 1) (fun _ => 1) (fun _ => 0) 1
    rfl rfl (fun _ => one_ne_zero) (fun _ => one_ne_zero)

/-- C3 (counterexample): on a tie (stock price equal to money-market
price) `MaxWealthStrategy.step` returns `0.0`, not `1.0`; and the online
fraction sequence does not equal the `compute_path` output entry by
entry (on the constant path at `(1, 1)` the step sequence gives `0` at
entry 1 while `compute_path` gives `1`). -/
theorem maxwealth_tie_and_shift_cex :
    MaxWealthStrategy.step ((1 : ℚ), 1, 0) ≠ 1 ∧
      MaxWealthStrategy.stepSeq (fun _ => (1 : ℚ)) (fun _ => 1) (fun _ => 0) 1
        ≠ MaxWealthStrategy.computePath (fun _ => (1 : ℚ)) (fun _ => 1) 1 := by
  constructor
  · decide
  · decide

/-- C3 (amended): ties favour the stock only in the batch formula.
`step` uses the strict comparison, so a tie observation yields fraction
`0.0`; `compute_path` fixes entry 0 at `1.0` and fills entry `t+1` from
the tick-`t` prices with `≥`; consequently entry `t+1` of the batch
output equals the `step` decision taken at tick `t` whenever the two
prices differ at tick `t` (the sequences agree only up to this one-tick
shift and away from ties). -/
theorem maxwealth_step_batch_relation {K : Type} [LinearOrderedField K]
    (M S r : ℕ → K) (t : ℕ) :
    (S t = M t → MaxWealthStrategy.step (M t, S t, r t) = 0) ∧
      MaxWealthStrategy.computePath M S 0 = 1 ∧
      (S t ≠ M t →
        MaxWealthStrategy.computePath M S (t + 1)
          = MaxWealthStrategy.step (M t, S t, r t)) := by
  refine ⟨fun h => ?_, rfl, fun h => ?_⟩
  · simp [MaxWealthStrategy.step, h]
  · rcases lt_or_gt_of_ne h with hlt | hgt
    · simp [MaxWealthStrategy.step, MaxWealthStrategy.computePath,
        not_le.mpr hlt, not_lt.mpr hlt.le]
    · simp [MaxWealthStrategy.step, MaxWealthStrategy.computePath, hgt, hgt.le]

/-- C3 (witness): the tie case evaluated on the constant unit path, and
the shifted equality evaluated at tick 0 of a path where the stock
dominates. -/
theorem maxwealth_step_batch_relation_w :
    MaxWealthStrategy.step ((1 : ℚ), 1, 0) = 0 ∧
      MaxWealthStrategy.computePath (fun _ => (1 : ℚ)) (fun _ => 2) (0 + 1)
        = MaxWealthStrategy.step ((1 : ℚ), 2, 0) :=
  ⟨(maxwealth_step_batch_relation (fun _ => (1 : ℚ)) (fun _ => 1) (fun _ => 0) 0).1 rfl,
   (maxwealth_step_batch_relation (fun _ => (1 : ℚ)) (fun _ => 2) (fun _ => 0) 0).2.2
     (by norm_num)⟩

/-- C4 (counterexample): on the zero-volatility test market the
constant-market CRRA oracle divides the market price of risk by the zero
volatility, so the numpy batch computation yields NaN fractions
(modelled as `none`) and the trader obtains no numeric terminal wealth
at tick 364 — in particular not `1.0`. -/
theorem crra_oracle_zero_vol_cex :
    crraTerminalWealth 2 yearModel (fun _ => 0) 364 = none := by
  simp [crraTerminalWealth, ConstantCRRAOracleStrategy.computePathC, yearModel]

/-- C4 (amended): with `dt = 1/365` and the constant market
`(drift, volatility, rate) = (0, 0, 0)` over a one-year horizon (ticks
`0..364`), the sampled money-market and stock rows are constant at `1.0`
and the terminal wealth is `1.0` for the Constant strategy (any
fraction) and for the MaxWealth strategy; the constant-market CRRA
oracle instead divides by the zero volatility and produces no numeric
terminal wealth (NaN, modelled as `none`). -/
theorem constant_zero_market_paths_and_wealth (z : ℕ → ℝ) (c R : ℝ) (t : ℕ)
    (ht : t ≤ 364) :
    MarketSimulator.batchMoneyPrice yearModel t = 1 ∧
      MarketSimulator.batchStockPrice yearModel z t = 1 ∧
      Trader.batchWealth yearModel.dt (ConstantStrategy.computePath c)
          (MarketSimulator.batchStockPrice yearModel z)
          (MarketSimulator.irPath yearModel) 364 = 1 ∧
      Trader.batchWealth yearModel.dt
          (MaxWealthStrategy.computePath (MarketSimulator.batchMoneyPrice yearModel)
            (MarketSimulator.batchStockPrice yearModel z))
          (MarketSimulator.batchStockPrice yearModel z)
          (MarketSimulator.irPath yearModel) 364 = 1 ∧
      crraTerminalWealth R yearModel z 364 = none := by
  have hS : ∀ k, MarketSimulator.batchStockPrice yearModel z k = 1 := fun k =>
    batchStockPrice_of_zero_params yearModel z rfl rfl k
  have hr : ∀ k, MarketSimulator.irPath yearModel k = 0 := fun _ => rfl
  refine ⟨batchMoneyPrice_of_ir_zero yearModel rfl t, hS t, ?_, ?_, ?_⟩
  · exact batchWealth_of_flat_market _ _ _ _ hS hr 364
  · exact batchWealth_of_flat_market _ _ _ _ hS hr 364
  · simp [crraTerminalWealth, ConstantCRRAOracleStrategy.computePathC, yearModel]

/-- C4 (witness): the amended statement evaluated at the terminal tick
with zero innovations, fraction one half and risk aversion 2. -/
theorem constant_zero_market_paths_and_wealth_w :
    MarketSimulator.batchMoneyPrice yearModel 364 = 1 ∧
      MarketSimulator.batchStockPrice yearModel (fun _ => 0) 364 = 1 ∧
      Trader.batchWealth yearModel.dt (ConstantStrategy.computePath (1/2))
          (MarketSimulator.batchStockPrice yearModel (fun _ => 0))
          (MarketSimulator.irPath yearModel) 364 = 1 ∧
      Trader.batchWealth yearModel.dt
          (MaxWealthStrategy.computePath (MarketSimulator.batchMoneyPrice yearModel)
            (MarketSimulator.batchStockPrice yearModel (fun _ => 0)))
          (MarketSimulator.batchStockPrice yearModel (fun _ => 0))
          (MarketSimulator.irPath yearModel) 364 = 1 ∧
      crraTerminalWealth 2 yearModel (fun _ => 0) 364 = none :=
  constant_zero_market_paths_and_wealth (fun _ => 0) (1/2) 2 364 le_rfl

/-- C5 (counterexample): with fraction 0, the wealth path does not equal
the sampled money-market row: with `dt = 1` and rate `1`, after one tick
the wealth is `1 + 1*1 = 2` (simple compounding) while the sampled
money-market price is `exp 1`. -/
theorem constant_frac0_money_mismatch_cex :
    Trader.batchWealth unitRateModel.dt (ConstantStrategy.computePath 0)
        (MarketSimulator.batchStockPrice unitRateModel (fun _ => 0))
        (MarketSimulator.irPath unitRateModel) 1
      ≠ MarketSimulator.batchMoneyPrice unitRateModel 1 := by
  have hL : Trader.batchWealth unitRateModel.dt (ConstantStrategy.computePath 0)
      (MarketSimulator.batchStockPrice unitRateModel (fun _ => 0))
      (MarketSimulator.irPath unitRateModel) 1 = 2 := by
    norm_num [Trader.batchWealth, ConstantStrategy.computePath,
      MarketSimulator.irPath, unitRateModel]
  have hR : MarketSimulator.batchMoneyPrice unitRateModel 1 = Real.exp 1 := by
    norm_num [MarketSimulator.batchMoneyPrice, unitRateModel]
  rw [hL, hR]
  have h1 : (2.7182818283 : ℝ) < Real.exp 1 := Real.exp_one_gt_d9
  intro h
  linarith

/-- C5 (amended): a trader holding the Constant strategy with fraction 0
on a sampled path has wealth `(1 + ir*dt)^t` at tick `t` — the simply
compounded money-market recursion of the step mode — which equals the
sampled (continuously compounded) money-market row exactly when the rate
is zero, and differs from it otherwise. -/
theorem constant_frac0_wealth_simple_compounding (m : ConstantMarketModel)
    (z : ℕ → ℝ) (t : ℕ) :
    Trader.batchWealth m.dt (ConstantStrategy.computePath 0)
        (MarketSimulator.batchStockPrice m z) (MarketSimulator.irPath m) t
      = (1 + m.ir * m.dt) ^ t ∧
      (m.ir = 0 →
        Trader.batchWealth m.dt (ConstantStrategy.computePath 0)
            (MarketSimulator.batchStockPrice m z) (MarketSimulator.irPath m) t
          = MarketSimulator.batchMoneyPrice m t) := by
  have h1 : ∀ n, Trader.batchWealth m.dt (ConstantStrategy.computePath 0)
      (MarketSimulator.batchStockPrice m z) (MarketSimulator.irPath m) n
      = (1 + m.ir * m.dt) ^ n := by
    intro n
    induction n with
    | zero => rfl
    | succ k ih =>
      rw [Trader.batchWealth, ih, pow_succ]
      simp only [ConstantStrategy.computePath, MarketSimulator.irPath]
      ring
  refine ⟨h1 t, fun h => ?_⟩
  rw [h1 t, batchMoneyPrice_of_ir_zero m h, h]
  simp

/-- C5 (witness): the amended statement evaluated on the zero-rate model
after two ticks. -/
theorem constant_frac0_wealth_simple_compounding_w :
    Trader.batchWealth zeroRateModel.dt (ConstantStrategy.computePath 0)
        (MarketSimulator.batchStockPrice zeroRateModel (fun _ => 0))
        (MarketSimulator.irPath zeroRateModel) 2
      = (1 + zeroRateModel.ir * zeroRateModel.dt) ^ 2 ∧
      Trader.batchWealth zeroRateModel.dt (ConstantStrategy.computePath 0)
        (MarketSimulator.batchStockPrice zeroRateModel (fun _ => 0))
        (MarketSimulator.irPath zeroRateModel) 2
      = MarketSimulator.batchMoneyPrice zeroRateModel 2 :=
  ⟨(constant_frac0_wealth_simple_compounding zeroRateModel (fun _ => 0) 2).1,
   (constant_frac0_wealth_simple_compounding zeroRateModel (fun _ => 0) 2).2 rfl⟩

/-- C6: a trader holding the Constant strategy with fraction 1 has at
every tick exactly the stock price as wealth, for every price path that
starts at `1` and has nonzero prices (the normalization and positivity
the sampled paths provide). -/
theorem constant_frac1_wealth_eq_stock {K : Type} [LinearOrderedField K]
    (dt : K) (S r : ℕ → K) (t : ℕ) (hS0 : S 0 = 1) (hS : ∀ k, S k ≠ 0) :
    Trader.batchWealth dt (ConstantStrategy.computePath 1) S r t = S t := by
  induction t with
  | zero => simp [Trader.batchWealth, hS0]
  | succ n ih =>
    rw [Trader.batchWealth, ih]
    simp only [ConstantStrategy.computePath, one_mul, sub_self, zero_mul, add_zero]
    rw [mul_add, mul_one, mul_comm (S n), div_mul_cancel₀ _ (hS n)]
    ring

/-- C6 (witness): the fraction-1 wealth path evaluated after two ticks
on the path `S t = t + 1`. -/
theorem constant_frac1_wealth_eq_stock_w :
    Trader.batchWealth (1 : ℚ) (ConstantStrategy.computePath 1)
        (fun t => (t : ℚ) + 1) (fun _ => 0) 2 = (2 : ℚ) + 1 :=
  constant_frac1_wealth_eq_stock 1 (fun t => (t : ℚ) + 1) (fun _ => 0) 2
    (by norm_num) (fun k => by positivity)

/-- C7 (counterexample): for horizon `0` (with `dt = 1`) `sample_path`
fails with the numpy negative-dimensions `ValueError`, not with an
`InvalidHorizon` error — no horizon validation exists in the code. -/
theorem sample_path_error_not_invalid_horizon_cex :
    MarketSimulator.samplePathChecked 1 0 0 0 0 (fun _ => 0)
        = Except.error MarketFailure.negativeDimensions ∧
      MarketSimulator.samplePathChecked 1 0 0 0 0 (fun _ => 0)
        ≠ Except.error MarketFailure.invalidHorizon := by
  have h : MarketSimulator.samplePathChecked 1 0 0 0 0 (fun _ => 0)
      = Except.error MarketFailure.negativeDimensions := by
    norm_num [MarketSimulator.samplePathChecked, pyInt]
  refine ⟨h, ?_⟩
  rw [h]
  intro hbad
  exact MarketFailure.noConfusion (Except.error.inj hbad)

/-- C7 (amended): for every horizon smaller than `dt` (which covers all
non-positive horizons when `dt > 0`), `sample_path` never returns a
price path: it fails, but with the numpy negative-dimensions
`ValueError` arising from `num_points = int(T/dt) - 1 < 0`, not with a
dedicated `InvalidHorizon` error. -/
theorem sample_path_fails_below_dt (dt T : ℚ) (sm sv ir : ℝ) (z : ℕ → ℝ)
    (hdt : 0 < dt) (hT : T < dt) :
    MarketSimulator.samplePathChecked dt T sm sv ir z
      = Except.error MarketFailure.negativeDimensions := by
  have hq : T / dt < 1 := (div_lt_one hdt).mpr hT
  have hn : pyInt (T / dt) - 1 < 0 := by
    unfold pyInt
    split_ifs with h0
    · have hfl : Int.floor (T / dt) < 1 := by
        rw [Int.floor_lt]
        exact_mod_cast hq
      omega
    · have hcl : Int.ceil (T / dt) ≤ 0 :=
        Int.ceil_le.mpr (by exact_mod_cast le_of_not_le h0)
      omega
  simp only [MarketSimulator.samplePathChecked]
  rw [if_pos hn]

/-- C7 (witness): the failure evaluated at `dt = 1`, horizon `1/2`. -/
theorem sample_path_fails_below_dt_w :
    MarketSimulator.samplePathChecked 1 (1/2) 0 0 0 (fun _ => 0)
      = Except.error MarketFailure.negativeDimensions :=
  sample_path_fails_below_dt 1 (1/2) 0 0 0 (fun _ => 0) (by norm_num) (by norm_num)

/-- C8: appending a column whose length differs from the fixed row count
fails with the dimension-mismatch error (the assert of `append_col`),
and `last_col` on a freshly constructed matrix with at least one row
fails with the empty-matrix error (the IndexError of `row[-1]`). -/
theorem growable_matrix_errors (R : ℕ) (a : ExpandArray ℚ) (col : List ℚ)
    (hR : 0 < R) (ha : a.num_rows = R) (hcol : col.length ≠ R) :
    a.append_col col = Except.error ArrayError.dimensionMismatch ∧
      (ExpandArray.init ℚ R).last_col = Except.error ArrayError.emptyMatrix := by
  constructor
  · unfold ExpandArray.append_col
    rw [if_neg (by rw [ha]; exact hcol)]
  · have hne : ((ExpandArray.init ℚ R).data.any fun row => row.isEmpty) = true := by
      obtain ⟨n, rfl⟩ := Nat.exists_eq_succ_of_ne_zero hR.ne'
      simp [ExpandArray.init, List.replicate_succ]
    unfold ExpandArray.last_col
    rw [if_pos hne]

/-- C8 (witness): with three rows, appending a column of length two and
reading the last column of the fresh matrix both fail as stated. -/
theorem growable_matrix_errors_w :
    (ExpandArray.init ℚ 3).append_col [1, 2]
        = Except.error ArrayError.dimensionMismatch ∧
      (ExpandArray.init ℚ 3).last_col = Except.error ArrayError.emptyMatrix :=
  growable_matrix_errors 3 (ExpandArray.init ℚ 3) [1, 2] (by decide) rfl (by decide)

/-- C9: the batch calls are pure with respect to the internal buffers:
`MarketSimulator.sample_path` returns the `prices` buffer unchanged and
`Trader.compute_path` returns `last_stock_price`, `positions` and
`portfolio_val` unchanged — in the source only `step` and `reset` assign
to these attributes. -/
theorem batch_calls_leave_state_unchanged (m : ConstantMarketModel)
    (s : MarketState) (z : ℕ → ℝ) (dt : ℝ) (st : TraderBuffers)
    (fracs M S r : ℕ → ℝ) :
    (MarketSimulator.samplePathState m s z).1 = s ∧
      (Trader.computePathState dt st fracs M S r).1 = st :=
  ⟨rfl, rfl⟩

/-- C10: every fraction the MaxWealth strategy produces is `0.0` or
`1.0`: `reset` returns `1.0`, `step` returns `1.0` or `0.0`, and every
entry of the `compute_path` output is `1.0` or `0.0`. -/
theorem maxwealth_fracs_zero_or_one {K : Type} [LinearOrderedField K]
    (info : K × K × K) (M S : ℕ → K) (t : ℕ) :
    (MaxWealthStrategy.reset : K) = 1 ∧
      (MaxWealthStrategy.step info = 0 ∨ MaxWealthStrategy.step info = 1) ∧
      (MaxWealthStrategy.computePath M S t = 0 ∨
        MaxWealthStrategy.computePath M S t = 1) := by
  refine ⟨rfl, ?_, ?_⟩
  · by_cases h : info.2.1 > info.1
    · exact Or.inr (by simp [MaxWealthStrategy.step, h])
    · exact Or.inl (by simp [MaxWealthStrategy.step, h])
  · cases t with
    | zero => exact Or.inr rfl
    | succ n =>
      by_cases h : S n ≥ M n
      · exact Or.inr (by simp [MaxWealthStrategy.computePath, h])
      · exact Or.inl (by simp [MaxWealthStrategy.computePath, h])
